import Mathlib

/-!
# Verification of the ThreeJS_Project simulation core

Shallow embedding of the kinematic simulation layer of the repository:

* the gravity / projectile scene (`src/unnamed/part_000`): single-object
  gravity with damped bounce, spawned falling spheres, full 3D projectile
  motion, raycast selection;
* the wave relaxation engine (`src/waves.js`): per-sample spring-damper
  impulse field with clamped displacement and windowed impulse kicks;
* the FPS combat module (`src/fps.js`): player hp / death state machine,
  hitscan weapon fire, threat hp / kill / fragmentation bookkeeping.

JavaScript numbers are embedded as exact rationals (`ℚ`); the floating
point literals of the source (`-9.8`, `0.5`, `0.033`, `3.5`, ...) become
the corresponding rational constants.  Scene-graph, material, DOM and
renderer state are outside the model; only the fields the simulation
reads or writes are carried.
-/

namespace ThreeJS

/-! ## Gravity / projectile scene (`src/unnamed/part_000`) -/

namespace GravityScene

/-- 3D vector with rational components, embedding `THREE.Vector3` as used
by the projectile integrator. -/
structure Vec3 where
  x : ℚ
  y : ℚ
  z : ℚ
deriving DecidableEq, Repr

/-- `v.addScaledVector(a, dt)` of the rendering library: `v + a * dt`,
componentwise. -/
def addScaledVector (v a : Vec3) (dt : ℚ) : Vec3 :=
  ⟨v.x + a.x * dt, v.y + a.y * dt, v.z + a.z * dt⟩

/-- The clickable objects of the scene that the single-object gravity
binding can attach to (`bouncingSphere`, `spinningTorus`, `rotatingCube`,
`wall`, `energyCone`).  The source compares object references against the
three animated globals; the model tags each object with its kind. -/
inductive ObjKind where
  | sphere
  | torus
  | cube
  | wall
  | cone
deriving DecidableEq, Repr

/-- The `animationPaused` record: one flag per idle-animated object. -/
structure AnimPaused where
  sphere : Bool
  torus : Bool
  cube : Bool
deriving DecidableEq, Repr

/-- The gravity presets `{ earth: -9.8, moon: -1.62, jupiter: -24.79 }`. -/
inductive Preset where
  | earth
  | moon
  | jupiter
deriving DecidableEq, Repr

/-- `gravityPresets[p]`: the vertical acceleration of each preset. -/
def gravityPresets : Preset → ℚ
  | .earth => -49/5
  | .moon => -81/50
  | .jupiter => -2479/100

/-- State of the single-object gravity binding (`gravityState`) together
with the bound object's `position.y` and the `animationPaused` record the
deactivation branch writes.  `posY` is the `position.y` of the mesh stored
in `gravityState.object`; it is meaningful while `object` is set. -/
structure SingleState where
  active : Bool
  object : Option ObjKind
  posY : ℚ
  velocityY : ℚ
  floorY : ℚ
  paused : AnimPaused
deriving DecidableEq, Repr

/-- The deactivation branch of the gravity loop restores the idle
animation of the bound object: it clears the paused flag whose global the
object reference compares equal to (`wall` and `cone` have no flag). -/
def resumeAnimation : ObjKind → AnimPaused → AnimPaused
  | .sphere, p => { p with sphere := false }
  | .torus, p => { p with torus := false }
  | .cube, p => { p with cube := false }
  | .wall, p => p
  | .cone, p => p

/-- One tick of the single-object gravity simulation, from `animate`
(`src/unnamed/part_000`, lines 1022-1041):

`velocityY += gAccel * delta; object.position.y += velocityY * delta;`
then on `position.y <= floorY`: clamp to `floorY`, `velocityY *= -0.5`,
and if `|velocityY| < 0.5` restore the object's animation and clear the
binding (`active := false`, `object := null`). -/
def stepSingleGravity (g dt : ℚ) (s : SingleState) : SingleState :=
  match s.object with
  | none => s
  | some k =>
    if s.active then
      let v := s.velocityY + g * dt
      let y := s.posY + v * dt
      if y ≤ s.floorY then
        let v2 := v * (-1/2)
        if |v2| < 1/2 then
          { s with posY := s.floorY, velocityY := v2,
                   active := false, object := none,
                   paused := resumeAnimation k s.paused }
        else
          { s with posY := s.floorY, velocityY := v2 }
      else
        { s with posY := y, velocityY := v }
    else s

/-- A spawned falling sphere (`dynamicBodies` entry): vertical-only body
`{ mesh, velocityY, floorY, active }`; `posY` is the mesh's `position.y`. -/
structure DynamicBody where
  posY : ℚ
  velocityY : ℚ
  floorY : ℚ
  active : Bool
deriving DecidableEq, Repr

/-- One tick for a spawned falling sphere, from `animate`
(`src/unnamed/part_000`, lines 1044-1059): same integration and damped
bounce as the single-object binding, but no animation coupling. -/
def stepDynamicBody (g dt : ℚ) (b : DynamicBody) : DynamicBody :=
  if b.active then
    let v := b.velocityY + g * dt
    let y := b.posY + v * dt
    if y ≤ b.floorY then
      let v2 := v * (-1/2)
      if |v2| < 1/2 then
        { b with posY := b.floorY, velocityY := v2, active := false }
      else
        { b with posY := b.floorY, velocityY := v2 }
    else
      { b with posY := y, velocityY := v }
  else b

/-- A projectile body (`projectiles` entry):
`{ mesh, velocity, acceleration, radius, active }`; `pos` is the mesh
position. -/
structure Projectile where
  pos : Vec3
  velocity : Vec3
  acceleration : Vec3
  radius : ℚ
  active : Bool
deriving DecidableEq, Repr

/-- One tick for a projectile, from `animate` (`src/unnamed/part_000`,
lines 1062-1074): `velocity.addScaledVector(acceleration, delta);
position.addScaledVector(velocity, delta)`, then on
`position.y <= radius` clamp `position.y = radius` and set
`active = false` (no bounce). -/
def stepProjectile (dt : ℚ) (p : Projectile) : Projectile :=
  if p.active then
    let v := addScaledVector p.velocity p.acceleration dt
    let pos := addScaledVector p.pos v dt
    if pos.y ≤ p.radius then
      { p with velocity := v, pos := { pos with y := p.radius }, active := false }
    else
      { p with velocity := v, pos := pos }
  else p

/-- The acceleration vector built by `spawnProjectile`
(`src/unnamed/part_000`, line 822):
`new THREE.Vector3(0, baseGravity + extraAcc, 0)` where `baseGravity`
is `gravityPresets[currentGravityPreset]` read at spawn time. -/
def spawnAcceleration (current : Preset) (extraAcc : ℚ) : Vec3 :=
  ⟨0, gravityPresets current + extraAcc, 0⟩

/-- A projectile as pushed by `spawnProjectile`: the velocity vector is
built from the UI speed/angle fields via trigonometry (embedded here as a
given vector `vel`), the acceleration is captured from the current preset
at spawn time, radius `0.25`, `active: true`. -/
def spawnProjectile (current : Preset) (extraAcc : ℚ) (startPos vel : Vec3) :
    Projectile :=
  { pos := startPos, velocity := vel,
    acceleration := spawnAcceleration current extraAcc,
    radius := 1/4, active := true }

/-- The whole-scene state read by the animation loop: the current gravity
preset, the single-object binding, the spawned spheres and the
projectiles. -/
structure SceneState where
  currentPreset : Preset
  single : SingleState
  bodies : List DynamicBody
  projectiles : List Projectile
deriving DecidableEq, Repr

/-- `onGravityPresetChange`: `currentGravityPreset = preset` (the floor
re-texturing is renderer state, outside the model). -/
def setPreset (p : Preset) (s : SceneState) : SceneState :=
  { s with currentPreset := p }

/-- One pass of the `animate` loop over the simulated bodies
(`src/unnamed/part_000`, lines 991-1074): `gAccel` is read once from
`gravityPresets[currentGravityPreset]` and used by the single-object
binding and every spawned sphere; each projectile integrates its own
stored `acceleration`.  The loops mutate in place and never splice, so
they are maps over the registries. -/
def animateTick (dt : ℚ) (s : SceneState) : SceneState :=
  let g := gravityPresets s.currentPreset
  { s with
    single := stepSingleGravity g dt s.single,
    bodies := s.bodies.map (stepDynamicBody g dt),
    projectiles := s.projectiles.map (stepProjectile dt) }

/-- The per-frame delta of the gravity / projectile scene's `animate`
(`src/unnamed/part_000`, line 994): `const delta = clock.getDelta();`
— the raw clock delta, with no clamp. -/
def gravitySceneDt (raw : ℚ) : ℚ := raw

/-- State carried by the raycast click handler: the selection label state
plus the gravity binding and animation flags it writes. -/
structure SelectState where
  lastClicked : Option ObjKind
  single : SingleState
deriving DecidableEq, Repr

/-- The hit branch of `onClick` (`src/unnamed/part_000`, lines 676-697):
the nearest hit becomes `lastClickedObject` (its material color change is
renderer state), and the gravity binding is cleared
(`gravityState.active = false; gravityState.object = null`).  The
`animationPaused` record is not touched. -/
def onClickSelect (hit : ObjKind) (s : SelectState) : SelectState :=
  { lastClicked := some hit,
    single := { s.single with active := false, object := none } }

end GravityScene

/-! ## Wave relaxation engine (`src/waves.js`) -/

namespace Waves

/-- The `clamp` helper of `src/waves.js`, line 872:
`Math.max(a, Math.min(b, v))`. -/
def clamp (v a b : ℚ) : ℚ := max a (min b v)

/-- One sample's spring-damper update inside `stepImpulse`
(`src/waves.js`, lines 598-602), on a `(impulsePos[i], impulseVel[i])`
pair with stiffness `k = 24`:

`vel += (-pos * k) * dt; vel *= (1 - damp); pos += vel * dt;
pos = clamp(pos, -3.0, 3.0)`. -/
def stepImpulseEntry (damp dt : ℚ) (pv : ℚ × ℚ) : ℚ × ℚ :=
  let v1 := pv.2 + (-pv.1 * 24) * dt
  let v2 := v1 * (1 - damp)
  let p1 := pv.1 + v2 * dt
  (clamp p1 (-3) 3, v2)

/-- `stepImpulse(dt)` (`src/waves.js`, lines 594-604): clamps the damping
parameter to `[0, 0.2]` and applies the spring-damper update to every
sample.  The two parallel arrays `impulsePos` / `impulseVel` are modelled
as one list of pairs. -/
def stepImpulse (dampRaw dt : ℚ) (state : List (ℚ × ℚ)) : List (ℚ × ℚ) :=
  let damp := clamp dampRaw 0 (1/5)
  state.map (stepImpulseEntry damp dt)

/-- The reset (`impulseVel.fill(0); impulsePos.fill(0)`, `src/waves.js`
lines 553-554) and the rebuild (`new Float32Array(params.pointCount)`,
lines 188-189) both leave every sample at `(0, 0)`. -/
def resetImpulse (n : ℕ) : List (ℚ × ℚ) := List.replicate n (0, 0)

/-- The per-sample kick of `addImpulseAtIndex` (`src/waves.js`, lines
705-710) at index distance `d` from the center:
`strength * Math.pow(Math.max(0, 1 - d/radius), fall) * 3.5`.
The falloff exponent (a float clamped to `>= 0.001` in the source) is
embedded as a natural number, which covers every preset value used with
an integral exponent (`1.0` in the `sine` and default presets). -/
def impulseKick (strength : ℚ) (radius : ℤ) (fall : ℕ) (d : ℤ) : ℚ :=
  strength * (max 0 (1 - (d : ℚ) / (radius : ℚ))) ^ fall * (7/2)

/-- Add `x` to the sample at (integer) index `i` when `i` is inside
`[0, length)`, otherwise leave the list unchanged — the
`if (i < 0 || i >= impulseVel.length) continue;` guard of the loop. -/
def setAdd (i : ℤ) (x : ℚ) (l : List ℚ) : List ℚ :=
  if 0 ≤ i ∧ i.toNat < l.length then
    l.set i.toNat (l.getD i.toNat 0 + x)
  else l

/-- The loop of `addImpulseAtIndex`: visit `count` consecutive integer
indices starting at `lo`, adding `k i` at each in-range index `i`. -/
def applyWindow (k : ℤ → ℚ) (lo : ℤ) (count : ℕ) (vel : List ℚ) : List ℚ :=
  match count with
  | 0 => vel
  | n + 1 => applyWindow k (lo + 1) n (setAdd lo (k lo) vel)

/-- `addImpulseAtIndex(centerIdx)` (`src/waves.js`, lines 698-712):
`radius = Math.max(1, Math.floor(params.impulseRadius))`, then for every
`i` from `centerIdx - radius` to `centerIdx + radius`, skipping indices
outside `[0, impulseVel.length)`, add
`strength * Math.pow(Math.max(0, 1 - |i - centerIdx|/radius), fall) * 3.5`
to `impulseVel[i]`.  Only the velocity array is written. -/
def addImpulseAtIndex (strength radiusRaw : ℚ) (fall : ℕ) (centerIdx : ℤ)
    (vel : List ℚ) : List ℚ :=
  let radius : ℤ := max 1 ⌊radiusRaw⌋
  applyWindow (fun i => impulseKick strength radius fall |i - centerIdx|)
    (centerIdx - radius) (2 * radius + 1).toNat vel

/-- The per-frame delta of the waves `animate` (`src/waves.js`, line
765): `Math.min(clock.getDelta(), 0.033)`. -/
def wavesAnimateDt (raw : ℚ) : ℚ := min raw (33/1000)

end Waves

/-! ## FPS combat module (`src/fps.js`) -/

namespace FPS

/-- A threat record (`src/fps.js`, lines 434-441):
`{ mesh, vel, radius, hp, scoreValue, alive }`.  The mesh reference
identity (through which `userData.threatRef` and `threats.indexOf`
resolve hits) is modelled by a numeric `id`; pose, velocity and radius
are not read by the properties verified here and are omitted. -/
structure Threat where
  id : ℕ
  hp : ℚ
  scoreValue : ℤ
  alive : Bool
deriving DecidableEq, Repr

/-- The mutable player / combat state of `src/fps.js` read and written by
`takeDamage` / `die` / `resetGame` / `shoot`.  `tracers` counts the
`bulletsFX` entries pushed by `addTracer`; `fragged` records, in order,
the id of each threat passed to `shatterThreat` by `shoot` (one entry per
fragmentation-into-debris event). -/
structure FPSState where
  hp : ℚ
  isDead : Bool
  score : ℤ
  kills : ℕ
  ammo : ℤ
  threats : List Threat
  tracers : ℕ
  fragged : List ℕ
deriving DecidableEq, Repr

/-- Resolution of a hit part back to its owning threat: the
`userData.threatRef` dereference together with `threats.indexOf(t)`
(`src/fps.js`, lines 826-831).  Returns the index and record of the
first threat with the hit id, `none` when the reference does not resolve
into the registry (the `idx < 0` guard). -/
def findThreat (tid : ℕ) : List Threat → Option (ℕ × Threat)
  | [] => none
  | t :: rest =>
    if t.id = tid then some (0, t)
    else (findThreat tid rest).map (fun r => (r.1 + 1, r.2))

/-- `die()` (`src/fps.js`, lines 868-888): `if (isDead) return;
isDead = true;` plus death-screen / pointer-lock side effects that are
DOM state outside the model. -/
def die (s : FPSState) : FPSState :=
  if s.isDead then s else { s with isDead := true }

/-- `takeDamage(amount)` (`src/fps.js`, lines 891-902):
`if (isDead) return; hp = Math.max(0, hp - amount);` then visual
feedback, then `if (hp <= 0) die();`. -/
def takeDamage (amount : ℚ) (s : FPSState) : FPSState :=
  if s.isDead then s
  else
    let s1 := { s with hp := max 0 (s.hp - amount) }
    if s1.hp ≤ 0 then die s1 else s1

/-- `resetGame()` (`src/fps.js`, lines 905-960): `ammo = 999;
isDead = false; hp = maxHP (= 100); score = 0; kills = 0;` and the
threat / debris / tracer registries are emptied.  Camera, timers and
overlay effects are outside the model; the `fragged` event log is a
history and is kept. -/
def resetGame (s : FPSState) : FPSState :=
  { s with isDead := false, hp := 100, score := 0, kills := 0, ammo := 999,
           threats := [], tracers := 0 }

/-- `shoot()` (`src/fps.js`, lines 803-859).  `hits` is the ordered list
of ray intersections returned by the raycast against the threats' visual
hierarchies, each entry being the `userData.threatRef` id of the part
that was hit.  The source: `if (ammo <= 0) return; ammo--;` always adds
one tracer, uses only `hits[0]`, resolves it to its owning threat
(returning if the reference is not alive or not found by
`threats.indexOf`), subtracts `damage = 28` from its hp, and on
`hp <= 0` increments `kills`, adds `scoreValue` to the score, fragments
the threat into debris (`shatterThreat`) and splices it out of `threats`
(`removeThreat`).  The knockback impulse on `t.vel` and the transient
hit-flash act on fields outside the model. -/
def shoot (hits : List ℕ) (s : FPSState) : FPSState :=
  if s.ammo ≤ 0 then s
  else
    let s1 := { s with ammo := s.ammo - 1, tracers := s.tracers + 1 }
    match hits with
    | [] => s1
    | tid :: _ =>
      match findThreat tid s1.threats with
      | none => s1
      | some (idx, t) =>
        if t.alive then
          let t2 := { t with hp := t.hp - 28 }
          let threats2 := s1.threats.set idx t2
          if t2.hp ≤ 0 then
            { s1 with kills := s1.kills + 1,
                      score := s1.score + t.scoreValue,
                      fragged := s1.fragged ++ [tid],
                      threats := threats2.eraseIdx idx }
          else
            { s1 with threats := threats2 }
        else s1

/-- The per-frame delta of the FPS `animate` (`src/fps.js`, line 1058):
`Math.min(clock.getDelta(), 0.033)`. -/
def fpsAnimateDt (raw : ℚ) : ℚ := min raw (33/1000)

end FPS

/-! ## Theorems -/

open GravityScene Waves FPS

/-- C1: each tick of the single-object gravity simulation integrates
`velocityY += presetAccel * dt` then `positionY += velocityY * dt`;
whenever the integrated `positionY <= floorY` the position is clamped to
`floorY` and `velocityY` is multiplied by `-0.5`; if the post-bounce
`|velocityY| < 0.5` the binding is marked inactive and cleared, the
object's idle animation is resumed (its paused flag is cleared), and the
resting position is exactly `floorY`; inactive states are fixed points of
the tick, so the body rests at `floorY` forever. -/
theorem single_gravity_tick_correct (g dt : ℚ) (s : SingleState)
    (k : ObjKind) (hact : s.active = true) (hobj : s.object = some k) :
    (s.floorY < s.posY + (s.velocityY + g * dt) * dt →
      stepSingleGravity g dt s =
        { s with posY := s.posY + (s.velocityY + g * dt) * dt,
                 velocityY := s.velocityY + g * dt }) ∧
    (s.posY + (s.velocityY + g * dt) * dt ≤ s.floorY →
      (stepSingleGravity g dt s).posY = s.floorY ∧
      (stepSingleGravity g dt s).velocityY = (s.velocityY + g * dt) * (-1/2) ∧
      (|(s.velocityY + g * dt) * (-1/2)| < 1/2 →
        (stepSingleGravity g dt s).active = false ∧
        (stepSingleGravity g dt s).object = none ∧
        (stepSingleGravity g dt s).paused = resumeAnimation k s.paused ∧
        (k = .sphere → (stepSingleGravity g dt s).paused.sphere = false) ∧
        (k = .torus → (stepSingleGravity g dt s).paused.torus = false) ∧
        (k = .cube → (stepSingleGravity g dt s).paused.cube = false)) ∧
      (1/2 ≤ |(s.velocityY + g * dt) * (-1/2)| →
        (stepSingleGravity g dt s).active = true ∧
        (stepSingleGravity g dt s).object = some k)) ∧
    (∀ (g2 dt2 : ℚ) (t : SingleState), t.active = false →
      stepSingleGravity g2 dt2 t = t) := by
  have hstep : stepSingleGravity g dt s =
      (if s.posY + (s.velocityY + g * dt) * dt ≤ s.floorY then
        (if |(s.velocityY + g * dt) * (-1/2)| < 1/2 then
          { s with posY := s.floorY,
                   velocityY := (s.velocityY + g * dt) * (-1/2),
                   active := false, object := none,
                   paused := resumeAnimation k s.paused }
        else
          { s with posY := s.floorY,
                   velocityY := (s.velocityY + g * dt) * (-1/2) })
      else
        { s with posY := s.posY + (s.velocityY + g * dt) * dt,
                 velocityY := s.velocityY + g * dt }) := by
    simp only [stepSingleGravity, hobj, hact, if_true]
  refine ⟨?_, ?_, ?_⟩
  · intro hy
    rw [hstep, if_neg (not_le.mpr hy)]
  · intro hy
    rw [hstep, if_pos hy]
    by_cases hstop : |(s.velocityY + g * dt) * (-1/2)| < 1/2
    · rw [if_pos hstop]
      refine ⟨rfl, rfl, ?_, ?_⟩
      · intro _
        refine ⟨rfl, rfl, rfl, ?_, ?_, ?_⟩ <;>
          (intro hk; subst hk; simp [resumeAnimation])
      · intro hc; exact absurd hstop (not_lt.mpr hc)
    · rw [if_neg hstop]
      refine ⟨rfl, rfl, ?_, ?_⟩
      · intro hc; exact absurd hc hstop
      · intro _; exact ⟨hact, hobj⟩
  · intro g2 dt2 t ht
    unfold stepSingleGravity
    cases htobj : t.object with
    | none => rfl
    | some k2 => simp [ht]

/-- Witness for C1: sphere bound at its floor with zero velocity under
the earth preset; the tick clamps it to the floor. -/
theorem single_gravity_tick_correct_witness :
    (stepSingleGravity (-49/5) 1
      { active := true, object := some ObjKind.sphere, posY := 0,
        velocityY := 0, floorY := 0,
        paused := { sphere := true, torus := false, cube := false } }).posY
      = 0 := by
  have h := single_gravity_tick_correct (-49/5) 1
    { active := true, object := some ObjKind.sphere, posY := 0,
      velocityY := 0, floorY := 0,
      paused := { sphere := true, torus := false, cube := false } }
    ObjKind.sphere rfl rfl
  exact (h.2.1 (by norm_num)).1

/-- An inactive projectile is untouched by the animation loop. -/
lemma stepProjectile_inactive (d : ℚ) (q : Projectile)
    (h : q.active = false) : stepProjectile d q = q := by
  unfold stepProjectile
  rw [h]
  rfl

/-- An inactive projectile stays untouched over any sequence of ticks. -/
lemma foldl_stepProjectile_inactive (dts : List ℚ) (q : Projectile)
    (h : q.active = false) :
    dts.foldl (fun a d => stepProjectile d a) q = q := by
  induction dts with
  | nil => rfl
  | cons d rest ih =>
    simp only [List.foldl_cons, stepProjectile_inactive d q h]
    exact ih

/-- C5: once the integrated `position.y <= radius` holds on a tick, the
projectile is clamped to `position.y = radius` and marked inactive, and
every later tick (with any delta) leaves it completely unchanged: it
never bounces, never becomes active again, and its `position.y` stays
exactly `radius`. -/
theorem projectile_no_bounce (dt : ℚ) (p : Projectile)
    (hact : p.active = true)
    (hy : (addScaledVector p.pos
            (addScaledVector p.velocity p.acceleration dt) dt).y ≤ p.radius) :
    (stepProjectile dt p).pos.y = p.radius ∧
    (stepProjectile dt p).active = false ∧
    (∀ dts : List ℚ,
      dts.foldl (fun a d => stepProjectile d a) (stepProjectile dt p) =
        stepProjectile dt p) ∧
    (∀ dts : List ℚ,
      (dts.foldl (fun a d => stepProjectile d a) (stepProjectile dt p)).pos.y
        = p.radius) := by
  have hstep : stepProjectile dt p =
      { p with velocity := addScaledVector p.velocity p.acceleration dt,
               pos := { addScaledVector p.pos
                          (addScaledVector p.velocity p.acceleration dt) dt
                        with y := p.radius },
               active := false } := by
    unfold stepProjectile
    rw [hact]
    simp only [if_pos hy, if_true]
  have hinact : (stepProjectile dt p).active = false := by rw [hstep]
  refine ⟨by rw [hstep], hinact, ?_, ?_⟩
  · intro dts
    exact foldl_stepProjectile_inactive dts _ hinact
  · intro dts
    rw [foldl_stepProjectile_inactive dts _ hinact, hstep]

/-- Witness for C5: a slow projectile just above the floor under earth
gravity lands this tick and rests at `y = radius` one tick later. -/
theorem projectile_no_bounce_witness :
    ((List.cons (1:ℚ) []).foldl (fun a d => stepProjectile d a)
      (stepProjectile 1
        { pos := ⟨0, 1/2, 0⟩, velocity := ⟨0, 0, 0⟩,
          acceleration := ⟨0, -49/5, 0⟩, radius := 1/4,
          active := true })).pos.y = 1/4 :=
  (projectile_no_bounce 1
    { pos := ⟨0, 1/2, 0⟩, velocity := ⟨0, 0, 0⟩,
      acceleration := ⟨0, -49/5, 0⟩, radius := 1/4, active := true }
    rfl (by norm_num [addScaledVector])).2.2.2 [1]

/-- C6 counterexample: gravity is active on the torus with its idle
animation paused; clicking the cube cancels the binding but the torus's
animation-paused flag is NOT cleared (`onClick` never writes
`animationPaused`), contradicting the claim that the previous object's
idle animation is restored. -/
theorem select_restore_animation_counterexample :
    ¬ ((onClickSelect ObjKind.cube
        { lastClicked := some ObjKind.torus,
          single := { active := true, object := some ObjKind.torus,
                      posY := 2, velocityY := 0, floorY := 1,
                      paused := { sphere := false, torus := true,
                                  cube := false } } }).single.paused.torus
        = false) := by decide

/-- C6 (amended): selecting a new object by a pick-ray click cancels any
active gravity binding (`active := false`, `object := null`) and records
the new selection, but leaves the `animationPaused` record unchanged —
the previously bound object's idle animation is not restored. -/
theorem select_cancels_gravity_amended (hit : ObjKind) (s : SelectState) :
    (onClickSelect hit s).single.active = false ∧
    (onClickSelect hit s).single.object = none ∧
    (onClickSelect hit s).single.paused = s.single.paused ∧
    (onClickSelect hit s).lastClicked = some hit :=
  ⟨rfl, rfl, rfl, rfl⟩

/-- C7 counterexample: the gravity / projectile scene's `animate` uses
the raw clock delta with no clamp, so a long frame of 0.1 s is integrated
with `dt = 0.1 > 0.033`, contradicting the claim that every simulation
mode clamps the per-frame delta. -/
theorem animate_dt_clamp_counterexample :
    gravitySceneDt (1/10) = 1/10 ∧ ¬ (gravitySceneDt (1/10) ≤ 33/1000) := by
  constructor
  · rfl
  · norm_num [gravitySceneDt]

/-- C7 (amended): the FPS mode and the waves mode clamp the per-frame
delta to at most `0.033` seconds, but the gravity / projectile scene
passes the raw clock delta through unclamped. -/
theorem animate_dt_clamp_amended (raw : ℚ) :
    fpsAnimateDt raw ≤ 33/1000 ∧ wavesAnimateDt raw ≤ 33/1000 ∧
    gravitySceneDt raw = raw :=
  ⟨min_le_right _ _, min_le_right _ _, rfl⟩

/-- C8 counterexample: a projectile spawned under the earth preset keeps
its spawn-time acceleration: after switching the preset to moon, the next
tick still changes its vertical velocity by `-9.8 * dt`, not by the moon
preset's `-1.62 * dt` as the claim requires. -/
theorem preset_change_projectile_counterexample :
    ((animateTick 1 (setPreset Preset.moon
      { currentPreset := Preset.earth,
        single := { active := false, object := none, posY := 0,
                    velocityY := 0, floorY := 0,
                    paused := { sphere := false, torus := false,
                                cube := false } },
        bodies := [],
        projectiles := [spawnProjectile Preset.earth 0 ⟨0, 5, 0⟩
                          ⟨0, 0, 0⟩] })).projectiles.map
        (fun q => q.velocity.y)) = [-49/5] ∧
    ¬ ((-49/5 : ℚ) = 0 + gravityPresets Preset.moon * 1) := by
  constructor
  · norm_num [animateTick, setPreset, stepProjectile, spawnProjectile,
      spawnAcceleration, addScaledVector, gravityPresets]
  · norm_num [gravityPresets]

/-- C8 (amended): changing the gravity preset changes the acceleration
used by the single bound object and by every spawned falling sphere from
the next tick onward (the loop re-reads `gravityPresets[current]` every
tick), but each live projectile keeps integrating the acceleration vector
captured at its spawn time, independent of the current preset. -/
theorem preset_change_amended (pr : Preset) (dt : ℚ) (s : SceneState) :
    (animateTick dt (setPreset pr s)).single =
      stepSingleGravity (gravityPresets pr) dt s.single ∧
    (animateTick dt (setPreset pr s)).bodies =
      s.bodies.map (stepDynamicBody (gravityPresets pr) dt) ∧
    (animateTick dt (setPreset pr s)).projectiles =
      s.projectiles.map (stepProjectile dt) ∧
    (animateTick dt s).projectiles = s.projectiles.map (stepProjectile dt) ∧
    (∀ p ∈ s.projectiles, p.active = true →
      (stepProjectile dt p).velocity =
        addScaledVector p.velocity p.acceleration dt) := by
  refine ⟨rfl, rfl, rfl, rfl, ?_⟩
  intro p _ hact
  unfold stepProjectile
  rw [hact]
  simp only [if_true]
  split <;> rfl

/-- Witness for C8 (amended): one active projectile under the earth
preset; its velocity after a tick is its stored acceleration scaled into
its velocity. -/
theorem preset_change_amended_witness :
    (stepProjectile 1 (spawnProjectile Preset.earth 0 ⟨0, 5, 0⟩
        ⟨0, 0, 0⟩)).velocity =
      addScaledVector ⟨0, 0, 0⟩
        (spawnAcceleration Preset.earth 0) 1 :=
  (preset_change_amended Preset.moon 1
    { currentPreset := Preset.earth,
      single := { active := false, object := none, posY := 0,
                  velocityY := 0, floorY := 0,
                  paused := { sphere := false, torus := false,
                              cube := false } },
      bodies := [],
      projectiles := [spawnProjectile Preset.earth 0 ⟨0, 5, 0⟩
                        ⟨0, 0, 0⟩] }).2.2.2.2
    (spawnProjectile Preset.earth 0 ⟨0, 5, 0⟩ ⟨0, 0, 0⟩)
    (List.mem_singleton.mpr rfl) rfl

/-- C2: after every spring-damper tick, every sample's impulse
displacement satisfies `|impulsePosition| <= 3.0`, for any damping, any
delta and any prior state (so any impulse strength applied to the
velocities); the reset / rebuild states satisfy the bound as well. -/
theorem wave_displacement_bound :
    (∀ (dampRaw dt : ℚ) (state : List (ℚ × ℚ)) (pv : ℚ × ℚ),
      pv ∈ stepImpulse dampRaw dt state → |pv.1| ≤ 3) ∧
    (∀ (n : ℕ) (pv : ℚ × ℚ), pv ∈ resetImpulse n → |pv.1| ≤ 3) := by
  constructor
  · intro dampRaw dt state pv hmem
    simp only [stepImpulse, List.mem_map] at hmem
    obtain ⟨q, _, hq⟩ := hmem
    rw [← hq]
    simp only [stepImpulseEntry, clamp]
    rw [abs_le]
    exact ⟨le_max_left _ _, max_le (by norm_num) (min_le_left _ _)⟩
  · intro n pv hmem
    simp only [resetImpulse] at hmem
    rw [List.eq_of_mem_replicate hmem]
    norm_num

/-- Witness for C2: a sample displaced to 5 with an undamped unit-delta
tick is clamped to -3; the reset state is at 0. -/
theorem wave_displacement_bound_witness :
    |((-3 : ℚ), (-120 : ℚ)).1| ≤ 3 ∧ |((0 : ℚ), (0 : ℚ)).1| ≤ 3 :=
  ⟨wave_displacement_bound.1 0 1 [(5, 0)] (-3, -120)
      (by norm_num [stepImpulse, stepImpulseEntry, clamp]),
   wave_displacement_bound.2 1 (0, 0)
      (by norm_num [resetImpulse])⟩

/-- C3: once the player's hp reaches 0 the state transitions to dead
exactly once: `takeDamage` on a dead state is a complete no-op (hp
unchanged, no second `die` transition — `die` itself is also a no-op on a
dead state), the hp produced by `takeDamage` is never negative, a lethal
hit on a live player sets `isDead` and leaves hp at exactly 0, `shoot`
never changes the dead flag, and `resetGame` is the operation that
transitions back to alive. -/
theorem player_death_freeze :
    (∀ (a : ℚ) (s : FPSState), s.isDead = true → takeDamage a s = s) ∧
    (∀ (a : ℚ) (s : FPSState), s.isDead = false → 0 ≤ (takeDamage a s).hp) ∧
    (∀ (a : ℚ) (s : FPSState), 0 ≤ s.hp → 0 ≤ (takeDamage a s).hp) ∧
    (∀ s : FPSState, s.isDead = true → die s = s) ∧
    (∀ (a : ℚ) (s : FPSState), s.isDead = false → s.hp - a ≤ 0 →
      (takeDamage a s).isDead = true ∧ (takeDamage a s).hp = 0) ∧
    (∀ (hits : List ℕ) (s : FPSState), (shoot hits s).isDead = s.isDead) ∧
    (∀ s : FPSState, (resetGame s).isDead = false) := by
  have hdead : ∀ (a : ℚ) (s : FPSState), s.isDead = true →
      takeDamage a s = s := by
    intro a s h
    unfold takeDamage
    rw [h]
    rfl
  have halive : ∀ (a : ℚ) (s : FPSState), s.isDead = false →
      0 ≤ (takeDamage a s).hp := by
    intro a s h
    unfold takeDamage
    rw [h]
    simp only [Bool.false_eq_true, if_false]
    split
    · unfold die
      split <;> exact le_max_left 0 _
    · exact le_max_left 0 _
  refine ⟨hdead, halive, ?_, ?_, ?_, ?_, ?_⟩
  · intro a s h0
    cases hd : s.isDead with
    | true => rw [hdead a s hd]; exact h0
    | false => exact halive a s hd
  · intro s h
    unfold die
    rw [h]
    rfl
  · intro a s hlive hlethal
    have hmax : max 0 (s.hp - a) = 0 := max_eq_left hlethal
    unfold takeDamage
    rw [hlive]
    simp only [Bool.false_eq_true, if_false, hmax]
    rw [if_pos le_rfl]
    simp [die, hlive]
  · intro hits s
    unfold shoot
    split
    · rfl
    · match hits with
      | [] => rfl
      | tid :: rest =>
        dsimp only
        split
        · rfl
        · split
          · split
            · rfl
            · rfl
          · rfl
  · intro s
    rfl

/-- Witness for C3: a dead player with 0 hp absorbs a further hit with
no change, and a lethal 120-damage hit on a full-health live player
leaves exactly 0 hp. -/
theorem player_death_freeze_witness :
    takeDamage 7
        { hp := 0, isDead := true, score := 5, kills := 1, ammo := 3,
          threats := [], tracers := 0, fragged := [] } =
      { hp := 0, isDead := true, score := 5, kills := 1, ammo := 3,
        threats := [], tracers := 0, fragged := [] } ∧
    (takeDamage 120
        { hp := 100, isDead := false, score := 0, kills := 0, ammo := 999,
          threats := [], tracers := 0, fragged := [] }).hp = 0 :=
  ⟨player_death_freeze.1 7 _ rfl,
   (player_death_freeze.2.2.2.2.1 120
      { hp := 100, isDead := false, score := 0, kills := 0, ammo := 999,
        threats := [], tracers := 0, fragged := [] }
      rfl (by norm_num)).2⟩

/-- C10: `shoot()` is a complete no-op when the ammo counter is at or
below 0 (the state is returned unchanged: no tracer, no damage, no
registry change); otherwise every invocation decrements ammo by exactly
1 and draws one tracer, for every hit list including a miss (`[]`). -/
theorem shoot_ammo_gate :
    (∀ (hits : List ℕ) (s : FPSState), s.ammo ≤ 0 → shoot hits s = s) ∧
    (∀ (hits : List ℕ) (s : FPSState), 0 < s.ammo →
      (shoot hits s).ammo = s.ammo - 1 ∧
      (shoot hits s).tracers = s.tracers + 1) := by
  constructor
  · intro hits s h
    unfold shoot
    rw [if_pos h]
  · intro hits s h
    unfold shoot
    rw [if_neg (not_le.mpr h)]
    match hits with
    | [] => exact ⟨rfl, rfl⟩
    | tid :: rest =>
      dsimp only
      split
      · exact ⟨rfl, rfl⟩
      · split
        · split
          · exact ⟨rfl, rfl⟩
          · exact ⟨rfl, rfl⟩
        · exact ⟨rfl, rfl⟩

/-- Witness for C10: with 0 ammo a shot changes nothing; with 5 ammo a
shot that hits nothing still costs exactly one round. -/
theorem shoot_ammo_gate_witness :
    shoot []
        { hp := 100, isDead := false, score := 0, kills := 0, ammo := 0,
          threats := [], tracers := 0, fragged := [] } =
      { hp := 100, isDead := false, score := 0, kills := 0, ammo := 0,
        threats := [], tracers := 0, fragged := [] } ∧
    (shoot []
        { hp := 100, isDead := false, score := 0, kills := 0, ammo := 5,
          threats := [], tracers := 0, fragged := [] }).ammo = 5 - 1 :=
  ⟨shoot_ammo_gate.1 []
      { hp := 100, isDead := false, score := 0, kills := 0, ammo := 0,
        threats := [], tracers := 0, fragged := [] } le_rfl,
   (shoot_ammo_gate.2 []
      { hp := 100, isDead := false, score := 0, kills := 0, ammo := 5,
        threats := [], tracers := 0, fragged := [] } (by norm_num)).1⟩

/-- `setAdd` preserves the number of samples. -/
lemma setAdd_length (i : ℤ) (x : ℚ) (l : List ℚ) :
    (setAdd i x l).length = l.length := by
  unfold setAdd
  split
  · exact List.length_set l _ _
  · rfl

/-- The impulse window preserves the number of samples. -/
lemma applyWindow_length (k : ℤ → ℚ) (count : ℕ) :
    ∀ (lo : ℤ) (vel : List ℚ),
      (applyWindow k lo count vel).length = vel.length := by
  induction count with
  | zero => intro lo vel; rfl
  | succ n ih =>
    intro lo vel
    show (applyWindow k (lo + 1) n (setAdd lo (k lo) vel)).length = _
    rw [ih, setAdd_length]

/-- Pointwise effect of `setAdd`: index `i` (when it is the in-range
sample `j`) receives `x`, every other sample is unchanged. -/
lemma setAdd_getD (i : ℤ) (x : ℚ) (l : List ℚ) (j : ℕ) (hj : j < l.length) :
    (setAdd i x l).getD j 0 =
      l.getD j 0 + (if (j : ℤ) = i then x else 0) := by
  unfold setAdd
  by_cases hcond : 0 ≤ i ∧ i.toNat < l.length
  · rw [if_pos hcond]
    by_cases hji : (j : ℤ) = i
    · have hij : i.toNat = j := by omega
      subst hij
      rw [if_pos hji]
      rw [List.getD_eq_getElem?_getD, List.getElem?_set_self hcond.2]
      rfl
    · rw [if_neg hji]
      have hne : i.toNat ≠ j := by omega
      rw [List.getD_eq_getElem?_getD, List.getElem?_set_ne hne,
        ← List.getD_eq_getElem?_getD, add_zero]
  · rw [if_neg hcond]
    have hne : ¬ ((j : ℤ) = i) := by omega
    rw [if_neg hne, add_zero]

/-- Pointwise effect of the impulse window `applyWindow`: sample `j`
receives `k j` exactly when `j` lies in the visited index window. -/
lemma applyWindow_getD (k : ℤ → ℚ) (count : ℕ) :
    ∀ (lo : ℤ) (vel : List ℚ) (j : ℕ), j < vel.length →
      (applyWindow k lo count vel).getD j 0 =
        vel.getD j 0 +
          (if lo ≤ (j : ℤ) ∧ (j : ℤ) < lo + (count : ℤ) then k j else 0) := by
  induction count with
  | zero =>
    intro lo vel j hj
    have h0 : ¬ (lo ≤ (j : ℤ) ∧ (j : ℤ) < lo + ((0 : ℕ) : ℤ)) := by omega
    rw [if_neg h0, add_zero]
    rfl
  | succ n ih =>
    intro lo vel j hj
    show (applyWindow k (lo + 1) n (setAdd lo (k lo) vel)).getD j 0 = _
    rw [ih (lo + 1) _ j (by rw [setAdd_length]; exact hj)]
    rw [setAdd_getD lo (k lo) vel j hj]
    by_cases h1 : (j : ℤ) = lo
    · rw [if_pos h1, if_neg (by omega), if_pos (by omega), h1]
      ring
    · rw [if_neg h1]
      by_cases h2 : lo + 1 ≤ (j : ℤ) ∧ (j : ℤ) < lo + 1 + (n : ℤ)
      · rw [if_pos h2, if_pos (by omega)]
        ring
      · rw [if_neg h2, if_neg (by omega)]
        ring

/-- `addImpulseAtIndex` with an integral radius `r >= 1` adds, at every
in-range sample `j` with `|j - c| <= r`, exactly
`strength * (1 - |j - c| / r) ^ fall * 3.5`; samples outside the window
are unchanged. -/
lemma addImpulse_getD_formula (strength : ℚ) (r fall : ℕ) (c : ℤ)
    (vel : List ℚ) (hr : 1 ≤ r) (j : ℕ) (hj : j < vel.length) :
    (addImpulseAtIndex strength (r : ℚ) fall c vel).getD j 0 =
      vel.getD j 0 +
        (if |(j : ℤ) - c| ≤ (r : ℤ) then
          strength * (1 - (|(j : ℤ) - c| : ℚ) / (r : ℚ)) ^ fall * (7/2)
        else 0) := by
  have hfloor : ⌊((r : ℕ) : ℚ)⌋ = (r : ℤ) := Int.floor_natCast r
  have hmax : max 1 ⌊((r : ℕ) : ℚ)⌋ = (r : ℤ) := by
    rw [hfloor]; omega
  have hcount : (((2 * (r : ℤ) + 1).toNat : ℕ) : ℤ) = 2 * (r : ℤ) + 1 := by
    omega
  unfold addImpulseAtIndex
  rw [hmax]
  rw [applyWindow_getD _ _ _ _ j hj]
  by_cases hB : |(j : ℤ) - c| ≤ (r : ℤ)
  · rw [if_pos (by rw [hcount] at *; rw [abs_le] at hB; omega :
        c - (r : ℤ) ≤ (j : ℤ) ∧
          (j : ℤ) < c - (r : ℤ) + (((2 * (r : ℤ) + 1).toNat : ℕ) : ℤ)),
      if_pos hB]
    unfold impulseKick
    have hr0 : (0 : ℚ) < ((r : ℤ) : ℚ) := by exact_mod_cast hr
    have hd : ((|(j : ℤ) - c| : ℤ) : ℚ) ≤ ((r : ℤ) : ℚ) := by exact_mod_cast hB
    have hnn : (0 : ℚ) ≤ 1 - ((|(j : ℤ) - c| : ℤ) : ℚ) / ((r : ℤ) : ℚ) := by
      have hdiv : ((|(j : ℤ) - c| : ℤ) : ℚ) / ((r : ℤ) : ℚ) ≤ 1 :=
        (div_le_one hr0).mpr hd
      linarith
    rw [max_eq_right hnn]
    norm_num
  · rw [if_neg (by rw [hcount] at *; rw [abs_le] at hB; omega :
        ¬ (c - (r : ℤ) ≤ (j : ℤ) ∧
          (j : ℤ) < c - (r : ℤ) + (((2 * (r : ℤ) + 1).toNat : ℕ) : ℤ))),
      if_neg hB]

/-- C9: `addImpulseAtIndex` adds exactly
`strength * (1 - distance/radius) ^ falloffExponent * 3.5` to the
impulse velocity of every sample within `radiusInSamples` of the center,
leaves every sample outside the window unchanged, and skips indices
outside `[0, N)` (the sample count is preserved and no out-of-range
write occurs); concretely, with strength 1, radius 6, falloff 1 at
center 70 of 140 samples, samples 64 and 76 receive 0 and sample 70
receives 3.5. -/
theorem addImpulse_kick_correct (strength : ℚ) (r fall : ℕ) (c : ℤ)
    (vel : List ℚ) (hr : 1 ≤ r) (hfall : 1 ≤ fall) :
    ((addImpulseAtIndex strength (r : ℚ) fall c vel).length = vel.length) ∧
    (∀ j : ℕ, j < vel.length →
      (addImpulseAtIndex strength (r : ℚ) fall c vel).getD j 0 =
        vel.getD j 0 +
          (if |(j : ℤ) - c| ≤ (r : ℤ) then
            strength * (1 - (|(j : ℤ) - c| : ℚ) / (r : ℚ)) ^ fall * (7/2)
          else 0)) ∧
    ((addImpulseAtIndex 1 6 1 70 (List.replicate 140 0)).getD 64 0 = 0 ∧
     (addImpulseAtIndex 1 6 1 70 (List.replicate 140 0)).getD 76 0 = 0 ∧
     (addImpulseAtIndex 1 6 1 70 (List.replicate 140 0)).getD 70 0 = 7/2) := by
  have hcast : ((6 : ℕ) : ℚ) = (6 : ℚ) := by norm_num
  have h64 := addImpulse_getD_formula 1 6 1 70 (List.replicate 140 (0 : ℚ))
    (by norm_num) 64 (by simp)
  have h76 := addImpulse_getD_formula 1 6 1 70 (List.replicate 140 (0 : ℚ))
    (by norm_num) 76 (by simp)
  have h70 := addImpulse_getD_formula 1 6 1 70 (List.replicate 140 (0 : ℚ))
    (by norm_num) 70 (by simp)
  rw [hcast] at h64 h76 h70
  have habs64 : |((64 : ℕ) : ℤ) - 70| = 6 := by decide
  have habs76 : |((76 : ℕ) : ℤ) - 70| = 6 := by decide
  have habs70 : |((70 : ℕ) : ℤ) - 70| = 0 := by decide
  refine ⟨?_, ?_, ?_, ?_, ?_⟩
  · unfold addImpulseAtIndex
    exact applyWindow_length _ _ _ _
  · intro j hj
    exact addImpulse_getD_formula strength r fall c vel hr j hj
  · rw [h64, habs64]
    norm_num
  · rw [h76, habs76]
    norm_num
  · rw [h70, habs70]
    norm_num

/-- Witness for C9: at the concrete scenario of the claim, the center
sample of the 140-sample field receives exactly 3.5. -/
theorem addImpulse_kick_correct_witness :
    (addImpulseAtIndex 1 6 1 70 (List.replicate 140 0)).getD 70 0 = 7/2 :=
  (addImpulse_kick_correct 1 6 1 70 (List.replicate 140 0)
    (by norm_num) (by norm_num)).2.2.2.2

/-- `findThreat` returns the threat stored at the returned index, and
that threat carries the id that was searched for. -/
lemma findThreat_spec :
    ∀ (l : List Threat) (tid : ℕ) (idx : ℕ) (t : Threat),
      findThreat tid l = some (idx, t) → l[idx]? = some t ∧ t.id = tid := by
  intro l
  induction l with
  | nil => intro tid idx t h; cases h
  | cons a rest ih =>
    intro tid idx t h
    unfold findThreat at h
    by_cases ha : a.id = tid
    · rw [if_pos ha] at h
      simp only [Option.some.injEq, Prod.mk.injEq] at h
      obtain ⟨h1, h2⟩ := h
      subst h1
      subst h2
      exact ⟨by simp, ha⟩
    · rw [if_neg ha] at h
      cases hr : findThreat tid rest with
      | none => rw [hr] at h; simp at h
      | some pr =>
        rw [hr] at h
        simp only [Option.map_some', Option.some.injEq, Prod.mk.injEq] at h
        obtain ⟨h1, h2⟩ := h
        subst h1
        subst h2
        obtain ⟨hget, hid⟩ := ih tid pr.1 pr.2 hr
        exact ⟨by simpa using hget, hid⟩

/-- Removing the element stored at `idx` removes exactly its own
contribution from a `countP`. -/
lemma countP_eraseIdx_getElem (p : Threat → Bool) :
    ∀ (l : List Threat) (idx : ℕ) (t : Threat), l[idx]? = some t →
      (l.eraseIdx idx).countP p =
        l.countP p - (if p t then 1 else 0) := by
  intro l
  induction l with
  | nil => intro idx t h; cases h
  | cons a rest ih =>
    intro idx t h
    cases idx with
    | zero =>
      simp only [List.getElem?_cons_zero, Option.some.injEq] at h
      subst h
      simp only [List.eraseIdx_cons_zero, List.countP_cons]
      omega
    | succ n =>
      simp only [List.getElem?_cons_succ] at h
      have hmem : t ∈ rest := List.getElem?_mem h
      have h1 : (if p t then 1 else 0) ≤ rest.countP p := by
        by_cases hp : p t
        · simpa [hp] using List.countP_pos_iff.mpr ⟨t, hmem, hp⟩
        · simp [hp]
      rw [List.eraseIdx_cons_succ, List.countP_cons, List.countP_cons,
        ih n t h]
      omega

/-- Replacing the element stored at `idx` by one on which the predicate
agrees leaves a `countP` unchanged. -/
lemma countP_set_getElem (p : Threat → Bool) (l : List Threat) (idx : ℕ)
    (t t2 : Threat) (h : l[idx]? = some t) (hp : p t = p t2) :
    (l.set idx t2).countP p = l.countP p := by
  obtain ⟨hlt, hEq⟩ := List.getElem?_eq_some.mp h
  have hmem : t ∈ l := List.getElem?_mem h
  have h1 : (if p t then 1 else 0) ≤ l.countP p := by
    by_cases hpt : p t
    · simpa [hpt] using List.countP_pos_iff.mpr ⟨t, hmem, hpt⟩
    · simp [hpt]
  rw [List.countP_set p l idx t2 hlt, hEq, ← hp]
  omega

/-- A killing shot: with ammo available, the first ray intersection
resolving to a live threat whose hp is at most the 28 weapon damage,
`shoot` performs exactly one kill increment, one score increment by the
threat's reward, one fragmentation event, and splices the threat out. -/
lemma shoot_kill_occurs (tid : ℕ) (rest : List ℕ) (s : FPSState) (idx : ℕ)
    (t : Threat) (hammo : 0 < s.ammo)
    (hft : findThreat tid s.threats = some (idx, t))
    (halive : t.alive = true) (hlethal : t.hp ≤ 28) :
    shoot (tid :: rest) s =
      { s with ammo := s.ammo - 1, tracers := s.tracers + 1,
               kills := s.kills + 1, score := s.score + t.scoreValue,
               fragged := s.fragged ++ [tid],
               threats := (s.threats.set idx
                 { t with hp := t.hp - 28 }).eraseIdx idx } := by
  unfold shoot
  rw [if_neg (not_le.mpr hammo)]
  dsimp only
  rw [hft]
  dsimp only
  rw [if_pos halive, if_pos (by linarith : t.hp - 28 ≤ (0:ℚ))]

/-- Per-call bookkeeping of `shoot`: kill increments and fragmentation
events happen in lockstep, and at most one of each occurs per call, no
matter how many ray intersections the hit list contains. -/
lemma shoot_events (hits : List ℕ) (s : FPSState) :
    (shoot hits s).kills + s.fragged.length =
      s.kills + (shoot hits s).fragged.length ∧
    (shoot hits s).fragged.length ≤ s.fragged.length + 1 ∧
    (shoot hits s).kills ≤ s.kills + 1 := by
  unfold shoot
  split
  · exact ⟨rfl, by omega, by omega⟩
  · match hits with
    | [] => dsimp only; exact ⟨rfl, by omega, by omega⟩
    | tid :: rest =>
      dsimp only
      cases hft : findThreat tid s.threats with
      | none =>
        dsimp only
        exact ⟨rfl, by omega, by omega⟩
      | some pr =>
        obtain ⟨idx, t⟩ := pr
        dsimp only
        split
        · split
          · refine ⟨?_, ?_, ?_⟩ <;> simp [List.length_append] <;> omega
          · exact ⟨rfl, by dsimp only; omega, by dsimp only; omega⟩
        · exact ⟨rfl, by dsimp only; omega, by dsimp only; omega⟩

/-- One `shoot` call preserves the invariant that a given threat id has
at most one event-or-registry occurrence in total: the number of
fragmentation events logged for it plus its multiplicity in the threat
registry. -/
lemma shoot_kill_inv (tid : ℕ) (hits : List ℕ) (s : FPSState)
    (h : s.fragged.count tid +
      s.threats.countP (fun u => u.id == tid) ≤ 1) :
    (shoot hits s).fragged.count tid +
      (shoot hits s).threats.countP (fun u => u.id == tid) ≤ 1 := by
  unfold shoot
  split
  · exact h
  · match hits with
    | [] => exact h
    | tid0 :: rest =>
      dsimp only
      cases hft : findThreat tid0 s.threats with
      | none =>
        dsimp only
        exact h
      | some pr =>
        obtain ⟨idx, t⟩ := pr
        dsimp only
        obtain ⟨hget, hid⟩ := findThreat_spec s.threats tid0 idx t hft
        have hset : ((s.threats.set idx
            { t with hp := t.hp - 28 }).countP (fun u => u.id == tid)) =
            s.threats.countP (fun u => u.id == tid) :=
          countP_set_getElem _ s.threats idx t _ hget rfl
        split
        · split
          · -- kill branch
            have hget2 : (s.threats.set idx
                { t with hp := t.hp - 28 })[idx]? =
                some { t with hp := t.hp - 28 } := by
              obtain ⟨hlt, _⟩ := List.getElem?_eq_some.mp hget
              exact List.getElem?_set_self (by simpa using hlt)
            have herase := countP_eraseIdx_getElem
              (fun u => u.id == tid) _ idx _ hget2
            rw [hset] at herase
            have hcount : (s.fragged ++ [tid0]).count tid =
                s.fragged.count tid + (if tid0 == tid then 1 else 0) := by
              rw [List.count_append, List.count_singleton]
            by_cases hsame : tid0 = tid
            · subst hsame
              have hpt : ((fun u => u.id == tid0)
                  { t with hp := t.hp - 28 }) = true := by
                simp [hid]
              have hpos : 0 <
                  s.threats.countP (fun u => u.id == tid0) :=
                List.countP_pos_iff.mpr
                  ⟨t, List.getElem?_mem hget, by simp [hid]⟩
              rw [herase, hcount]
              simp only [hpt, beq_self_eq_true, if_true]
              omega
            · have hne : (tid0 == tid) = false := by
                simp [hsame]
              have hpt2 : (t.id == tid) = false := by
                simp [hid, hsame]
              rw [herase, hcount]
              dsimp only
              rw [hne, hpt2]
              simp only [Bool.false_eq_true, if_false]
              omega
          · -- damage without kill
            rw [hset]
            exact h
        · exact h

/-- The at-most-one-event invariant is preserved over any sequence of
`shoot` calls with arbitrary hit lists. -/
lemma foldl_shoot_inv (tid : ℕ) (shots : List (List ℕ)) :
    ∀ s : FPSState,
      s.fragged.count tid + s.threats.countP (fun u => u.id == tid) ≤ 1 →
      (shots.foldl (fun st h => shoot h st) s).fragged.count tid +
        (shots.foldl (fun st h => shoot h st) s).threats.countP
          (fun u => u.id == tid) ≤ 1 := by
  induction shots with
  | nil => intro s h; exact h
  | cons hd tl ih =>
    intro s h
    exact ih (shoot hd s) (shoot_kill_inv tid hd s h)

/-- C4: when a threat's hp is driven to 0 or below by weapon damage,
exactly one kill increment, one score increment by the threat's reward
and one fragmentation event occur, and the threat leaves the registry;
kill increments and fragmentation events happen in lockstep with at most
one per `shoot` call regardless of how many ray intersections the hit
list contains; and over any sequence of shots a threat that occurs at
most once (registry plus event log) is fragmented at most once. -/
theorem threat_kill_idempotent :
    (∀ (hits : List ℕ) (s : FPSState),
      (shoot hits s).kills ≤ s.kills + 1 ∧
      (shoot hits s).fragged.length ≤ s.fragged.length + 1 ∧
      (shoot hits s).kills + s.fragged.length =
        s.kills + (shoot hits s).fragged.length) ∧
    (∀ (tid : ℕ) (rest : List ℕ) (s : FPSState) (idx : ℕ) (t : Threat),
      0 < s.ammo → findThreat tid s.threats = some (idx, t) →
      t.alive = true → t.hp ≤ 28 →
      (shoot (tid :: rest) s).kills = s.kills + 1 ∧
      (shoot (tid :: rest) s).score = s.score + t.scoreValue ∧
      (shoot (tid :: rest) s).fragged = s.fragged ++ [tid] ∧
      (s.threats.countP (fun u => u.id == tid) = 1 →
        (shoot (tid :: rest) s).threats.countP
          (fun u => u.id == tid) = 0)) ∧
    (∀ (tid : ℕ) (shots : List (List ℕ)) (s : FPSState),
      s.fragged.count tid +
        s.threats.countP (fun u => u.id == tid) ≤ 1 →
      (shots.foldl (fun st h => shoot h st) s).fragged.count tid ≤ 1) := by
  refine ⟨?_, ?_, ?_⟩
  · intro hits s
    obtain ⟨h1, h2, h3⟩ := shoot_events hits s
    exact ⟨h3, h2, h1⟩
  · intro tid rest s idx t hammo hft halive hlethal
    obtain ⟨hget, hid⟩ := findThreat_spec s.threats tid idx t hft
    rw [shoot_kill_occurs tid rest s idx t hammo hft halive hlethal]
    refine ⟨rfl, rfl, rfl, ?_⟩
    intro hone
    dsimp only
    have hget2 : (s.threats.set idx { t with hp := t.hp - 28 })[idx]? =
        some { t with hp := t.hp - 28 } := by
      obtain ⟨hlt, _⟩ := List.getElem?_eq_some.mp hget
      exact List.getElem?_set_self (by simpa using hlt)
    have herase := countP_eraseIdx_getElem
      (fun u => u.id == tid) _ idx _ hget2
    have hset := countP_set_getElem
      (fun u => u.id == tid) s.threats idx t
      { t with hp := t.hp - 28 } hget rfl
    have hpt : (t.id == tid) = true := by simp [hid]
    rw [herase, hset, hone]
    dsimp only
    rw [hpt]
    simp
  · intro tid shots s h
    have hinv := foldl_shoot_inv tid shots s h
    omega

/-- Witness for C4: a single live threat with 20 hp is killed by one
shot (one kill, one fragmentation); firing twice at the same id still
logs at most one fragmentation event for it. -/
theorem threat_kill_idempotent_witness :
    (shoot [0]
      { hp := 100, isDead := false, score := 0, kills := 0, ammo := 999,
        threats := [{ id := 0, hp := 20, scoreValue := 100,
                      alive := true }],
        tracers := 0, fragged := [] }).kills = 0 + 1 ∧
    (([[0], [0]] : List (List ℕ)).foldl (fun st h => shoot h st)
      { hp := 100, isDead := false, score := 0, kills := 0, ammo := 999,
        threats := [{ id := 0, hp := 20, scoreValue := 100,
                      alive := true }],
        tracers := 0, fragged := [] }).fragged.count 0 ≤ 1 :=
  ⟨(threat_kill_idempotent.2.1 0 []
      { hp := 100, isDead := false, score := 0, kills := 0, ammo := 999,
        threats := [{ id := 0, hp := 20, scoreValue := 100,
                      alive := true }],
        tracers := 0, fragged := [] }
      0 { id := 0, hp := 20, scoreValue := 100, alive := true }
      (by norm_num) (by decide) rfl (by norm_num)).1,
   threat_kill_idempotent.2.2 0 [[0], [0]]
      { hp := 100, isDead := false, score := 0, kills := 0, ammo := 999,
        threats := [{ id := 0, hp := 20, scoreValue := 100,
                      alive := true }],
        tracers := 0, fragged := [] }
      (by decide)⟩

end ThreeJS
